import Mathlib

/-!
Verification of the openclaw-polymarket plugin's normalization and
validation layer.  The definitions below are a shallow embedding of the
TypeScript source (the tools module and `src/index.ts`): JavaScript
numbers are modelled as exact fractions extended with signed infinities
and NaN (double rounding and overflow of written-out literals are not
modelled), loosely-typed upstream fields as an explicit sum type, and
each tool's `execute` body as a pure function of its parameters and an
environment recording what the external CLOB client would answer.
Calls issued to that client are recorded in an explicit trace.
-/

namespace Polymarket

/-- An exact fraction: integer numerator over natural denominator.  Kept
unnormalized so that all arithmetic is kernel-reducible; every fraction
this development builds has a positive denominator. -/
structure JsRat where
  num : Int
  den : Nat
deriving DecidableEq, Repr

/-- Strict comparison of fractions by cross-multiplication. -/
def JsRat.blt (a b : JsRat) : Bool := a.num * (b.den : Int) < b.num * (a.den : Int)

/-- Whether the fraction is zero. -/
def JsRat.isZero (q : JsRat) : Bool := q.num == 0

/-- Negation of a fraction. -/
def JsRat.neg (q : JsRat) : JsRat := ⟨-q.num, q.den⟩

/-- The rational number a fraction denotes. -/
def JsRat.toRat (q : JsRat) : ℚ := (q.num : ℚ) / (q.den : ℚ)

/-- A JavaScript number as this layer observes it: a finite value, a
signed infinity, or NaN. -/
inductive JsNum where
  | fin (q : JsRat)
  | inf (neg : Bool)
  | nan
deriving DecidableEq, Repr

/-- `isNaN(x)` of JavaScript. -/
def JsNum.isNaN : JsNum → Bool
  | .nan => true
  | _ => false

/-- Whether the value is an ordinary finite number. -/
def JsNum.isFinite : JsNum → Bool
  | .fin _ => true
  | _ => false

/-- JavaScript `<`: false whenever either side is NaN. -/
def JsNum.lt : JsNum → JsNum → Bool
  | .nan, _ => false
  | _, .nan => false
  | .fin a, .fin b => JsRat.blt a b
  | .fin _, .inf n => !n
  | .inf n, .fin _ => n
  | .inf a, .inf b => a && !b

/-- JavaScript `<=`: false whenever either side is NaN. -/
def JsNum.le : JsNum → JsNum → Bool
  | .nan, _ => false
  | _, .nan => false
  | .fin a, .fin b => !JsRat.blt b a
  | .fin _, .inf n => !n
  | .inf n, .fin _ => n
  | .inf a, .inf b => a == b || (a && !b)

/-- 10 ^ n, by plain recursion (kernel-reducible). -/
def pow10 : Nat → Nat
  | 0 => 1
  | n + 1 => 10 * pow10 n

/-- `mant * 10 ^ e` as a fraction. -/
def decValue (mant : Nat) (e : Int) : JsRat :=
  if 0 ≤ e then ⟨(mant : Int) * (pow10 e.toNat : Int), 1⟩
  else ⟨(mant : Int), pow10 (-e).toNat⟩

/-- Leading decimal digits of a character list, as values, with the rest. -/
def takeDigits : List Char → List Nat × List Char
  | c :: rest =>
     if c.isDigit then
       let (ds, r) := takeDigits (rest)
       ((c.toNat - 48) :: ds, r)
     else ([], c :: rest)
  | [] => ([], [])

/-- The natural number written by a digit list. -/
def digitsToNat (ds : List Nat) : Nat := ds.foldl (fun a d => a * 10 + d) 0

/-- The optional exponent part at the given position: `e` or `E`, an
optional sign, then digits; `0` when absent or when no digit follows
(the exponent marker is then not part of the number). -/
def parseExpo (cs : List Char) : Int :=
  match cs with
  | e :: r3 =>
    if e = 'e' || e = 'E' then
      let sg : Bool × List Char :=
        match r3 with
        | '-' :: r => (true, r)
        | '+' :: r => (false, r)
        | _ => (false, r3)
      let eds := (takeDigits sg.2).1
      if eds.isEmpty then 0
      else if sg.1 then -(digitsToNat eds : Int) else (digitsToNat eds : Int)
    else 0
  | [] => 0

/-- The decimal part of JavaScript's `parseFloat` after sign handling:
`digits [. digits]? [e or E, sign?, digits]?`, longest valid prefix,
trailing garbage ignored; an `e` not followed by digits is not part of
the number.  `none` when no digit occurs before the exponent position. -/
def parseDecimal (cs : List Char) : Option JsRat :=
  let ipr := takeDigits cs
  let fpr :=
    match ipr.2 with
    | '.' :: r => takeDigits r
    | _ => ([], ipr.2)
  if ipr.1.isEmpty && fpr.1.isEmpty then none
  else some (decValue (digitsToNat (ipr.1 ++ fpr.1)) (parseExpo fpr.2 - fpr.1.length))

/-- The whitespace `parseFloat` strips from the front (ASCII forms). -/
def jsSpace (c : Char) : Bool :=
  c = ' ' || c = '\t' || c = '\n' || c = '\r' || c.val == 11 || c.val == 12

/-- JavaScript's `parseFloat` on a string: strip leading whitespace, read
an optional sign, then either the literal `Infinity` or a decimal
literal; NaN when no number can be read. -/
def parseFloat (s : String) : JsNum :=
  let cs0 := s.data.dropWhile jsSpace
  let sg : Bool × List Char :=
    match cs0 with
    | '-' :: r => (true, r)
    | '+' :: r => (false, r)
    | _ => (false, cs0)
  if sg.2.take 8 = "Infinity".data then JsNum.inf sg.1
  else
    match parseDecimal sg.2 with
    | some q => JsNum.fin (if sg.1 then q.neg else q)
    | none => JsNum.nan

/-- JSON insignificant whitespace. -/
def jWS (c : Char) : Bool := c = ' ' || c = '\t' || c = '\n' || c = '\r'

/-- Drop leading JSON whitespace. -/
def skipWS (cs : List Char) : List Char := cs.dropWhile jWS

/-- The value of a hexadecimal digit. -/
def hexVal (c : Char) : Option Nat :=
  if c.isDigit then some (c.toNat - 48)
  else if 'a' ≤ c && c ≤ 'f' then some (c.toNat - 87)
  else if 'A' ≤ c && c ≤ 'F' then some (c.toNat - 55)
  else none

/-- Body of a JSON string after the opening quote: decoded characters and
the input after the closing quote.  Handles the escape forms of JSON and
rejects bare control characters. -/
def parseStrBody : List Char → Option (List Char × List Char)
  | '"' :: rest => some ([], rest)
  | '\\' :: e :: rest =>
    match e with
    | '"' => (fun p => ('"' :: p.1, p.2)) <$> parseStrBody rest
    | '\\' => (fun p => ('\\' :: p.1, p.2)) <$> parseStrBody rest
    | '/' => (fun p => ('/' :: p.1, p.2)) <$> parseStrBody rest
    | 'b' => (fun p => ('\x08' :: p.1, p.2)) <$> parseStrBody rest
    | 'f' => (fun p => ('\x0c' :: p.1, p.2)) <$> parseStrBody rest
    | 'n' => (fun p => ('\n' :: p.1, p.2)) <$> parseStrBody rest
    | 'r' => (fun p => ('\r' :: p.1, p.2)) <$> parseStrBody rest
    | 't' => (fun p => ('\t' :: p.1, p.2)) <$> parseStrBody rest
    | 'u' =>
      match rest with
      | h1 :: h2 :: h3 :: h4 :: r => do
        let a ← hexVal h1
        let b ← hexVal h2
        let c ← hexVal h3
        let d ← hexVal h4
        let p ← parseStrBody r
        some (Char.ofNat (((a * 16 + b) * 16 + c) * 16 + d) :: p.1, p.2)
      | _ => none
    | _ => none
  | c :: rest =>
    if c.val < 32 then none
    else (fun p => (c :: p.1, p.2)) <$> parseStrBody rest
  | [] => none

/-- A JSON string literal: requires the opening quote. -/
def parseJString (cs : List Char) : Option (String × List Char) :=
  match cs with
  | '"' :: rest => (fun p => (String.mk p.1, p.2)) <$> parseStrBody rest
  | _ => none

/-- The fraction and exponent tail of a JSON number. -/
def parseJNumTail (cs : List Char) : Option (List Char) :=
  let afterFrac : Option (List Char) :=
    match cs with
    | '.' :: r =>
      let (ds, r2) := takeDigits r
      if ds.isEmpty then none else some r2
    | _ => some cs
  match afterFrac with
  | none => none
  | some c1 =>
    match c1 with
    | e :: r =>
      if e = 'e' || e = 'E' then
        let r2 := match r with
          | '-' :: r' => r'
          | '+' :: r' => r'
          | _ => r
        let (ds, r3) := takeDigits r2
        if ds.isEmpty then none else some r3
      else some c1
    | [] => some c1

/-- A JSON number: `-? (0 | [1-9] digits) frac? exp?`. -/
def parseJNumber (cs : List Char) : Option (List Char) :=
  let c1 := match cs with
    | '-' :: r => r
    | _ => cs
  match c1 with
  | '0' :: r => parseJNumTail r
  | c :: _ =>
    if c.isDigit then
      let (_, r) := takeDigits c1
      parseJNumTail r
    else none
  | [] => none

mutual

/-- Consume one JSON value; fuel bounds the recursion depth. -/
def parseJValue : Nat → List Char → Option (List Char)
  | 0, _ => none
  | fuel + 1, cs =>
    match cs with
    | '"' :: _ => (fun p => p.2) <$> parseJString cs
    | '[' :: r => parseJArr fuel (skipWS r)
    | '\x7b' :: r => parseJObj fuel (skipWS r)
    | _ =>
      if cs.take 4 = "true".data then some (cs.drop 4)
      else if cs.take 5 = "false".data then some (cs.drop 5)
      else if cs.take 4 = "null".data then some (cs.drop 4)
      else parseJNumber cs

/-- Inside `[`, whitespace skipped: the first element or `]`. -/
def parseJArr : Nat → List Char → Option (List Char)
  | 0, _ => none
  | fuel + 1, cs =>
    match cs with
    | ']' :: r => some r
    | _ => do
      let r1 ← parseJValue fuel cs
      parseJArrTail fuel (skipWS r1)

/-- After an array element: `,` and another element, or `]`. -/
def parseJArrTail : Nat → List Char → Option (List Char)
  | 0, _ => none
  | fuel + 1, cs =>
    match cs with
    | ']' :: r => some r
    | ',' :: r => do
      let r1 ← parseJValue fuel (skipWS r)
      parseJArrTail fuel (skipWS r1)
    | _ => none

/-- Inside an object, whitespace skipped: the first member or closing brace. -/
def parseJObj : Nat → List Char → Option (List Char)
  | 0, _ => none
  | fuel + 1, cs =>
    match cs with
    | '\x7d' :: r => some r
    | _ => do
      let r1 ← parseJMember fuel cs
      parseJObjTail fuel (skipWS r1)

/-- After an object member: `,` and another member, or the closing brace. -/
def parseJObjTail : Nat → List Char → Option (List Char)
  | 0, _ => none
  | fuel + 1, cs =>
    match cs with
    | '\x7d' :: r => some r
    | ',' :: r => do
      let r1 ← parseJMember fuel (skipWS r)
      parseJObjTail fuel (skipWS r1)
    | _ => none

/-- One object member: a string key, `:`, a value. -/
def parseJMember : Nat → List Char → Option (List Char)
  | 0, _ => none
  | fuel + 1, cs => do
    let p ← parseJString cs
    match skipWS p.2 with
    | ':' :: r => parseJValue fuel (skipWS r)
    | _ => none

end

/-- Whether a string is a well-formed JSON document, as `JSON.parse`
accepts it.  The fuel is ample: the parser consumes at least one
character for every two fuel steps it opens. -/
def jsonValid (s : String) : Bool :=
  match parseJValue (3 * s.data.length + 8) (skipWS s.data) with
  | some r => (skipWS r).isEmpty
  | none => false

/-- After `[`: the elements of a JSON array whose elements are all string
literals, with the input after `]`. -/
def parseStrItems : Nat → List Char → Option (List String × List Char)
  | 0, _ => none
  | fuel + 1, cs =>
    match cs with
    | ']' :: r => some ([], r)
    | ',' :: r => do
      let p ← parseJString (skipWS r)
      let q ← parseStrItems fuel (skipWS p.2)
      some (p.1 :: q.1, q.2)
    | _ => none

/-- A complete JSON document that is an array of string literals: its
elements.  `none` when the document has any other shape. -/
def parseStrList (s : String) : Option (List String) :=
  match skipWS s.data with
  | '[' :: r =>
    match skipWS r with
    | ']' :: r2 => if (skipWS r2).isEmpty then some [] else none
    | cs => do
      let p ← parseJString cs
      let q ← parseStrItems (s.data.length + 1) (skipWS p.2)
      if (skipWS q.2).isEmpty then some (p.1 :: q.1) else none
  | _ => none

/-- A loosely-typed upstream field as the tools receive it: absent
(`undefined`), a string, an array of strings, or some other JavaScript
value of which only the truthiness matters to this layer. -/
inductive RawField where
  | absent
  | strVal (s : String)
  | listVal (xs : List String)
  | otherVal (truthy : Bool)
deriving DecidableEq, Repr

/-- JavaScript truthiness of a raw field (`undefined` is falsy, a string
is truthy when non-empty, an array is always truthy). -/
def RawField.truthy : RawField → Bool
  | .absent => false
  | .strVal s => !(s == "")
  | .listVal _ => true
  | .otherVal t => t

/-- The tools module's `parseJsonField`: a string is handed to
`JSON.parse`, returning the fallback when that throws; an array is
returned unchanged; anything else gives the fallback.  `.error ()` marks
the one region outside this model: a well-formed JSON document that is
not an array of strings, which the source would cast unsoundly to
`string[]`. -/
def parseJsonField (v : RawField) (fallback : List String) : Except Unit (List String) :=
  match v with
  | .strVal s =>
    if jsonValid s then
      match parseStrList s with
      | some xs => .ok xs
      | none => .error ()
    else .ok fallback
  | .listVal xs => .ok xs
  | .absent => .ok fallback
  | .otherVal _ => .ok fallback

/-- A raw market row of the Gamma listing API. -/
structure GammaMarket where
  conditionId : String
  question : String
  slug : String
  volume : String
  endDate : String
  active : Bool
  closed : Bool
  clobTokenIds : RawField
  outcomes : RawField
  outcomePrices : RawField
deriving DecidableEq, Repr

/-- One entry of a normalized market's `tokens` array. -/
structure MarketToken where
  token_id : String
  outcome : String
  price : JsNum
deriving DecidableEq, Repr

/-- A normalized market as `formatMarket` returns it. -/
structure FormattedMarket where
  condition_id : String
  question : String
  tokens : List MarketToken
  volume : String
  end_date : String
  active : Bool
  closed : Bool
deriving DecidableEq, Repr

/-- The token at index `i` of `formatMarket`'s loop: `tokenIds[i] || ""`,
`outcomes[i]`, and `prices[i] ? parseFloat(prices[i]) : 0` (an absent or
empty price string is falsy). -/
def tokenAt (prices tokenIds : List String) (outcome : String) (i : Nat) : MarketToken :=
  { token_id := tokenIds.getD i ""
    outcome := outcome
    price :=
      match prices.get? i with
      | some p => if p = "" then JsNum.fin ⟨0, 1⟩ else parseFloat p
      | none => JsNum.fin ⟨0, 1⟩ }

/-- The `for (let i = 0; i < outcomes.length; i++)` loop of
`formatMarket`, building one token per outcome index. -/
def buildTokens (outcomes prices tokenIds : List String) : List MarketToken :=
  (List.range outcomes.length).map fun i => tokenAt prices tokenIds (outcomes.getD i "") i

/-- Positional zipping stated structurally: one token per outcome, the
price and token-id lists consumed in step, missing entries defaulted. -/
def zipTokensSpec : List String → List String → List String → List MarketToken
  | [], _, _ => []
  | o :: os, prices, tokenIds =>
    { token_id := tokenIds.headD ""
      outcome := o
      price :=
        match prices with
        | [] => JsNum.fin ⟨0, 1⟩
        | p :: _ => if p = "" then JsNum.fin ⟨0, 1⟩ else parseFloat p } ::
    zipTokensSpec os prices.tail tokenIds.tail

/-- The tools module's `formatMarket`: decode the three parallel fields
(outcomes falling back to `["Yes", "No"]`, the others to `[]`), zip them
by outcome index, and default volume to `"0"`.  (`endDate || ""` is the
identity on the string model.) -/
def formatMarket (m : GammaMarket) : Except Unit FormattedMarket :=
  match parseJsonField m.outcomes ["Yes", "No"] with
  | .error e => .error e
  | .ok outcomes =>
    match parseJsonField m.outcomePrices [] with
    | .error e => .error e
    | .ok prices =>
      match parseJsonField m.clobTokenIds [] with
      | .error e => .error e
      | .ok tokenIds =>
        .ok { condition_id := m.conditionId
              question := m.question
              tokens := buildTokens outcomes prices tokenIds
              volume := if m.volume = "" then "0" else m.volume
              end_date := m.endDate
              active := m.active
              closed := m.closed }

/-- The client-side part of `fetchGammaMarkets` after the page arrives:
a non-array body gives `[]`; otherwise keep markets that are not closed
and whose `clobTokenIds` field is truthy, then truncate to `limit`. -/
def filterMarketsPage (body : Option (List GammaMarket)) (limit : Nat) : List GammaMarket :=
  match body with
  | none => []
  | some ms => (ms.filter fun m => !m.closed && m.clobTokenIds.truthy).take limit

/-- The HTTP response of the Gamma market-listing endpoint. -/
structure GammaListResponse where
  ok : Bool
  statusText : String
  body : Option (List GammaMarket)
deriving Repr

/-- `fetchGammaMarkets`: throws on a non-ok response, otherwise filters
and truncates the page. -/
def fetchGammaMarkets (resp : GammaListResponse) (limit : Nat) : Except String (List GammaMarket) :=
  if !resp.ok then .error ("Failed to fetch markets: " ++ resp.statusText)
  else .ok (filterMarketsPage resp.body limit)

/-- The HTTP response of the Gamma single-market endpoint. -/
inductive GammaMarketResponse where
  | success (m : GammaMarket)
  | notFound
  | failure (statusText : String)
deriving Repr

/-- `fetchGammaMarket`: a 404 is a normal `null` return, any other
non-ok response is a thrown error. -/
def fetchGammaMarket : GammaMarketResponse → Except String (Option GammaMarket)
  | .success m => .ok (some m)
  | .notFound => .ok none
  | .failure st => .error ("Failed to fetch market: " ++ st)

/-- The uniform tool envelope: `toolResult(data)` or
`errorResult(message)` (which sets `isError: true`).  Serialization of
the payload is not modelled; the payload is kept structured. -/
inductive ToolOut (α : Type) where
  | ok (data : α)
  | err (message : String)
deriving DecidableEq, Repr

/-- Whether the envelope carries the `isError` flag. -/
def ToolOut.isError {α : Type} : ToolOut α → Bool
  | .ok _ => false
  | .err _ => true

/-- JavaScript `v || d` for an optional string (`undefined` and `""` are
falsy). -/
def jsOr (v : Option String) (d : String) : String :=
  match v with
  | some s => if s = "" then d else s
  | none => d

/-- JavaScript `v || d` for an optional number parameter (`undefined`
and `0` are falsy); non-integral parameter values are outside the model. -/
def jsOrNat (v : Option Nat) (d : Nat) : Nat :=
  match v with
  | some 0 => d
  | some (n + 1) => n + 1
  | none => d

/-- `markets.map(formatMarket)`, propagating the model boundary. -/
def formatAll : List GammaMarket → Except Unit (List FormattedMarket)
  | [] => .ok []
  | m :: rest =>
    match formatMarket m with
    | .error e => .error e
    | .ok f =>
      match formatAll rest with
      | .error e => .error e
      | .ok fs => .ok (f :: fs)

/-- Environment of `polymarket_get_markets`: whether `client.initialize`
throws, and the listing endpoint's response. -/
structure MarketsEnv where
  initErr : Option String
  response : GammaListResponse

/-- `polymarket_get_markets.execute` (the search/offset parameters only
shape the upstream URL and are not modelled). -/
def getMarketsExecute (env : MarketsEnv) (limit : Option Nat) : Except Unit (ToolOut (List FormattedMarket)) :=
  match env.initErr with
  | some msg => .ok (.err msg)
  | none =>
    match fetchGammaMarkets env.response (jsOrNat limit 10) with
    | .error msg => .ok (.err msg)
    | .ok ms =>
      match formatAll ms with
      | .error e => .error e
      | .ok fs => .ok (.ok fs)

/-- Environment of `polymarket_get_market`. -/
structure MarketEnv where
  initErr : Option String
  response : GammaMarketResponse

/-- `polymarket_get_market.execute`. -/
def getMarketExecute (env : MarketEnv) (conditionId : String) : Except Unit (ToolOut FormattedMarket) :=
  match env.initErr with
  | some msg => .ok (.err msg)
  | none =>
    if conditionId = "" then .ok (.err "condition_id is required")
    else
      match fetchGammaMarket env.response with
      | .error msg => .ok (.err msg)
      | .ok none => .ok (.err ("Market not found: " ++ conditionId))
      | .ok (some m) =>
        match formatMarket m with
        | .error e => .error e
        | .ok f => .ok (.ok f)

/-- One raw orderbook level (decimal strings passed through unchanged). -/
structure RawOrderbookEntry where
  price : String
  size : String
deriving DecidableEq, Repr

/-- The raw orderbook as the CLOB client returns it. -/
structure RawOrderbook where
  bids : Option (List RawOrderbookEntry)
  asks : Option (List RawOrderbookEntry)
deriving Repr

/-- The orderbook tool's payload. -/
structure OrderbookOut where
  token_id : String
  bids : List RawOrderbookEntry
  asks : List RawOrderbookEntry
deriving DecidableEq, Repr

/-- Environment of `polymarket_get_orderbook`. -/
structure OrderbookEnv where
  initErr : Option String
  orderbook : Except String RawOrderbook

/-- `polymarket_get_orderbook.execute`. -/
def getOrderbookExecute (env : OrderbookEnv) (tokenId : String) : ToolOut OrderbookOut :=
  match env.initErr with
  | some msg => .err msg
  | none =>
    if tokenId = "" then .err "token_id is required"
    else
      match env.orderbook with
      | .error msg => .err msg
      | .ok ob => .ok { token_id := tokenId, bids := ob.bids.getD [], asks := ob.asks.getD [] }

/-- The raw balance/allowance payload. -/
structure RawBalanceAllowance where
  balance : Option String
  allowance : Option String
deriving Repr

/-- The balance tool's payload. -/
structure BalanceOut where
  address : String
  balance : String
  allowance : String
deriving DecidableEq, Repr

/-- Environment of `polymarket_get_balance`. -/
structure BalanceEnv where
  initErr : Option String
  funder : String
  balanceResp : Except String RawBalanceAllowance

/-- `polymarket_get_balance.execute`. -/
def getBalanceExecute (env : BalanceEnv) : ToolOut BalanceOut :=
  match env.initErr with
  | some msg => .err msg
  | none =>
    match env.balanceResp with
    | .error msg => .err msg
    | .ok b => .ok { address := env.funder, balance := jsOr b.balance "0", allowance := jsOr b.allowance "0" }

/-- A raw open order as the CLOB client returns it. -/
structure RawOpenOrder where
  id : String
  asset_id : String
  side : String
  price : String
  original_size : String
  size_matched : String
  outcome : Option String
  market : Option String
deriving DecidableEq, Repr

/-- One derived position entry. -/
structure Position where
  token_id : String
  market : String
  outcome : String
  size : String
  avg_price : String
deriving DecidableEq, Repr

/-- One formatted open order. -/
structure FormattedOrder where
  id : String
  token_id : String
  side : String
  price : String
  size : String
  filled : String
deriving DecidableEq, Repr

/-- The positions tool's payload. -/
structure PositionsOut where
  positions : List Position
  open_orders : List FormattedOrder
deriving DecidableEq, Repr

/-- The position entry derived from one open order. -/
def positionOf (o : RawOpenOrder) : Position :=
  { token_id := o.asset_id
    market := jsOr o.market "Unknown"
    outcome := jsOr o.outcome "Unknown"
    size := o.original_size
    avg_price := o.price }

/-- The first-seen-wins position map of `polymarket_get_positions`, in
insertion order (a JavaScript `Map` preserves it). -/
def buildPositions (orders : List RawOpenOrder) : List Position :=
  orders.foldl
    (fun acc o => if acc.any (fun p => p.token_id = o.asset_id) then acc else acc ++ [positionOf o])
    []

/-- The flat open-order formatting of `polymarket_get_positions`. -/
def formatOrder (o : RawOpenOrder) : FormattedOrder :=
  { id := o.id
    token_id := o.asset_id
    side := o.side
    price := o.price
    size := o.original_size
    filled := o.size_matched }

/-- Environment of `polymarket_get_positions`: `getOpenOrders` may throw
or return `null` (modelled `none`). -/
structure PositionsEnv where
  initErr : Option String
  openOrders : Except String (Option (List RawOpenOrder))

/-- `polymarket_get_positions.execute`. -/
def getPositionsExecute (env : PositionsEnv) : ToolOut PositionsOut :=
  match env.initErr with
  | some msg => .err msg
  | none =>
    match env.openOrders with
    | .error msg => .err msg
    | .ok none => .ok { positions := [], open_orders := [] }
    | .ok (some orders) =>
      if orders.length = 0 then .ok { positions := [], open_orders := [] }
      else .ok { positions := buildPositions orders, open_orders := orders.map formatOrder }

/-- A raw trade as the CLOB client returns it. -/
structure RawTrade where
  id : String
  asset_id : String
  side : String
  price : String
  size : String
  timestamp : Option String
  match_time : Option String
  status : String
deriving DecidableEq, Repr

/-- One formatted trade. -/
structure FormattedTrade where
  id : String
  token_id : String
  side : String
  price : String
  size : String
  timestamp : String
  status : String
deriving DecidableEq, Repr

/-- Trade formatting: `t.timestamp || t.match_time || ""`. -/
def formatTrade (t : RawTrade) : FormattedTrade :=
  { id := t.id
    token_id := t.asset_id
    side := t.side
    price := t.price
    size := t.size
    timestamp := jsOr t.timestamp (jsOr t.match_time "")
    status := t.status }

/-- Environment of `polymarket_get_trades`. -/
structure TradesEnv where
  initErr : Option String
  trades : Except String (Option (List RawTrade))

/-- `polymarket_get_trades.execute`: `(allTrades || []).slice(0, limit)`. -/
def getTradesExecute (env : TradesEnv) (limit : Option Nat) : ToolOut (List FormattedTrade) :=
  match env.initErr with
  | some msg => .err msg
  | none =>
    match env.trades with
    | .error msg => .err msg
    | .ok ts => .ok (((ts.getD []).take (jsOrNat limit 20)).map formatTrade)

/-- The order side handed to the CLOB client (`side === "BUY" ?
ClobSide.BUY : ClobSide.SELL` — any other string becomes SELL). -/
inductive Side where
  | buy
  | sell
deriving DecidableEq, Repr

/-- A call issued to the CLOB client, with the arguments that matter to
the claims (`createOrder` is also passed `feeRateBps: 0`). -/
inductive ClobCall where
  | getMarket (tokenID : String)
  | createOrder (tokenID : String) (side : Side) (size : JsNum) (price : JsNum)
  | postOrder
  | cancelOrder (orderID : String)
deriving DecidableEq, Repr

/-- The raw market metadata `clobClient.getMarket` returns. -/
structure RawMarketInfo where
  minimum_tick_size : Option JsRat
  neg_risk : Option Bool
deriving Repr

/-- The raw response of `clobClient.postOrder`. -/
structure RawOrderResponse where
  orderID : Option String
  status : Option String
  errorMsg : Option String
deriving DecidableEq, Repr

/-- The `order_details` echo of a successful submission.  The source
stringifies `size` and `price` (`size.toString()`); the numeric values
are kept here. -/
structure OrderDetails where
  token_id : String
  side : String
  size : JsNum
  price : JsNum
  tick_size : JsRat
  neg_risk : Bool
deriving DecidableEq, Repr

/-- The payload of a successful `polymarket_place_order`. -/
structure PlaceResult where
  order_id : String
  status : String
  message : Option String
  order_details : OrderDetails
deriving DecidableEq, Repr

/-- The parameters of `polymarket_place_order.execute`; an absent
parameter is the empty string (both are falsy where tested, and
`parseFloat` yields NaN on either). -/
structure PlaceParams where
  token_id : String
  side : String
  size : String
  price : String
deriving DecidableEq, Repr

/-- Environment of `polymarket_place_order`: whether initialization and
the write-access guard throw, and the three CLOB client answers. -/
structure PlaceEnv where
  initErr : Option String
  writeErr : Option String
  marketInfo : Except String RawMarketInfo
  createErr : Option String
  postResp : Except String RawOrderResponse

/-- The default tick size used when metadata is unavailable. -/
def tickDefault : JsRat := ⟨1, 100⟩

/-- `isNaN(size) || size < 5`. -/
def sizeInvalid (n : JsNum) : Bool := n.isNaN || n.lt (.fin ⟨5, 1⟩)

/-- `isNaN(price) || price <= 0 || price >= 1`. -/
def priceInvalid (n : JsNum) : Bool :=
  n.isNaN || n.le (.fin ⟨0, 1⟩) || (JsNum.fin ⟨1, 1⟩).le n

/-- The tick size and negative-risk flag after the metadata step:
`marketInfo.minimum_tick_size || 0.01` and `marketInfo.neg_risk ||
false`, with the whole fetch falling back to the defaults when it
throws. -/
def metadataOf (r : Except String RawMarketInfo) : JsRat × Bool :=
  match r with
  | .error _ => (tickDefault, false)
  | .ok mi =>
    (match mi.minimum_tick_size with
     | some q => if q.isZero then tickDefault else q
     | none => tickDefault,
     mi.neg_risk.getD false)

/-- `polymarket_place_order.execute`, paired with the trace of CLOB
client calls it issues. -/
def placeOrderExecute (env : PlaceEnv) (p : PlaceParams) : ToolOut PlaceResult × List ClobCall :=
  match env.initErr with
  | some msg => (.err msg, [])
  | none =>
  match env.writeErr with
  | some msg => (.err msg, [])
  | none =>
    let size := parseFloat p.size
    let price := parseFloat p.price
    if p.token_id = "" then (.err "token_id is required", [])
    else if p.side = "" then (.err "side is required (BUY or SELL)", [])
    else if sizeInvalid size then (.err "size must be at least 5", [])
    else if priceInvalid price then (.err "price must be between 0 and 1 (exclusive)", [])
    else
      let (tickSize, negRisk) := metadataOf env.marketInfo
      let clobSide : Side := if p.side = "BUY" then .buy else .sell
      match env.createErr with
      | some msg => (.err msg, [.getMarket p.token_id, .createOrder p.token_id clobSide size price])
      | none =>
        match env.postResp with
        | .error msg =>
          (.err msg, [.getMarket p.token_id, .createOrder p.token_id clobSide size price, .postOrder])
        | .ok resp =>
          (.ok { order_id := resp.orderID.getD ""
                 status := jsOr resp.status "unknown"
                 message := resp.errorMsg
                 order_details :=
                   { token_id := p.token_id, side := p.side, size := size, price := price
                     tick_size := tickSize, neg_risk := negRisk } },
           [.getMarket p.token_id, .createOrder p.token_id clobSide size price, .postOrder])

/-- The payload of a successful `polymarket_cancel_order`; the raw
upstream response is echoed (kept opaque as a string). -/
structure CancelResult where
  order_id : String
  status : String
  response : String
deriving DecidableEq, Repr

/-- Environment of `polymarket_cancel_order`. -/
structure CancelEnv where
  initErr : Option String
  writeErr : Option String
  cancelResp : Except String String

/-- `polymarket_cancel_order.execute`, paired with its CLOB call trace. -/
def cancelOrderExecute (env : CancelEnv) (orderId : String) : ToolOut CancelResult × List ClobCall :=
  match env.initErr with
  | some msg => (.err msg, [])
  | none =>
  match env.writeErr with
  | some msg => (.err msg, [])
  | none =>
    if orderId = "" then (.err "order_id is required", [])
    else
      match env.cancelResp with
      | .error msg => (.err msg, [.cancelOrder orderId])
      | .ok r => (.ok { order_id := orderId, status := "cancelled", response := r }, [.cancelOrder orderId])

/-- The tool list of `createPolymarketTools`, in source order. -/
def toolNames : List String :=
  ["polymarket_get_markets", "polymarket_get_market", "polymarket_get_orderbook",
   "polymarket_get_balance", "polymarket_get_positions", "polymarket_get_trades",
   "polymarket_place_order", "polymarket_cancel_order"]

/-- The read-only tools. -/
def readToolNames : List String :=
  ["polymarket_get_markets", "polymarket_get_market", "polymarket_get_orderbook",
   "polymarket_get_balance", "polymarket_get_positions", "polymarket_get_trades"]

/-- The registration-time gate of `activate`: in readonly mode the two
write tools are skipped; every other tool is registered. -/
def registeredToolNames (readonly : Bool) : List String :=
  toolNames.filter fun n =>
    !(readonly && (n = "polymarket_place_order" || n = "polymarket_cancel_order"))

/-- Decidable equality for `Except`, so concrete runs can be settled by
`decide`. -/
instance instDecEqExcept {ε α : Type} [DecidableEq ε] [DecidableEq α] : DecidableEq (Except ε α) :=
  fun x y =>
    match x, y with
    | .ok a, .ok b =>
      if h : a = b then .isTrue (congrArg Except.ok h)
      else .isFalse (fun hh => h (Except.ok.inj hh))
    | .error e, .error f =>
      if h : e = f then .isTrue (congrArg Except.error h)
      else .isFalse (fun hh => h (Except.error.inj hh))
    | .ok _, .error _ => .isFalse (fun hh => Except.noConfusion hh)
    | .error _, .ok _ => .isFalse (fun hh => Except.noConfusion hh)

/-- A fully-successful place-order environment used for concrete runs. -/
def envAllOk : PlaceEnv :=
  { initErr := none
    writeErr := none
    marketInfo := .ok { minimum_tick_size := some ⟨1, 1000⟩, neg_risk := some false }
    createErr := none
    postResp := .ok { orderID := some "oid1", status := some "live", errorMsg := none } }

/-- The code's acceptance of a size parameter. -/
def sizeAccepted (s : String) : Bool := !sizeInvalid (parseFloat s)

/-- The code's acceptance of a price parameter. -/
def priceAccepted (s : String) : Bool := !priceInvalid (parseFloat s)

/-- Modelled from the spec: "size parses as a finite number and is ≥ 5". -/
def specSizeAccepted (s : String) : Bool :=
  match parseFloat s with
  | .fin q => !JsRat.blt q ⟨5, 1⟩
  | _ => false

theorem pow10_pos (n : Nat) : 0 < pow10 n := by
  induction n with
  | zero => simp [pow10]
  | succ k ih =>
    simp only [pow10]
    exact Nat.mul_pos (by norm_num) ih

theorem decValue_den_pos (mant : Nat) (e : Int) : 0 < (decValue mant e).den := by
  unfold decValue
  split <;> simp [pow10_pos]

theorem parseDecimal_den_pos (cs : List Char) (q : JsRat) (h : parseDecimal cs = some q) :
    0 < q.den := by
  simp only [parseDecimal] at h
  split at h
  · exact absurd h (by simp)
  · simp only [Option.some.injEq] at h
    exact h ▸ decValue_den_pos _ _

theorem parseFloat_den_pos (s : String) (q : JsRat) (h : parseFloat s = .fin q) :
    0 < q.den := by
  simp only [parseFloat] at h
  split at h
  · exact absurd h (by simp)
  · split at h
    next q' hq =>
      have hd := parseDecimal_den_pos _ _ hq
      have hh : (if _ = true then q'.neg else q') = q := JsNum.fin.inj h
      rcases hh with rfl
      split <;> simpa [JsRat.neg]
    next => exact absurd h (by simp)

theorem JsRat.blt_iff {a b : JsRat} (ha : 0 < a.den) (hb : 0 < b.den) :
    JsRat.blt a b = true ↔ a.toRat < b.toRat := by
  have ha' : (0 : ℚ) < (a.den : ℚ) := by exact_mod_cast ha
  have hb' : (0 : ℚ) < (b.den : ℚ) := by exact_mod_cast hb
  rw [JsRat.blt, decide_eq_true_eq, JsRat.toRat, JsRat.toRat, div_lt_div_iff₀ ha' hb']
  constructor
  · intro h; exact_mod_cast h
  · intro h; exact_mod_cast h

/-- C3: with the read-only flag set, the registry built at activation
registers neither `polymarket_place_order` nor `polymarket_cancel_order`
while registering exactly the six read-only tools; without the flag every
tool is registered (the gate acts once, at registration). -/
theorem C3_readonly_gating :
    registeredToolNames true = readToolNames ∧
    "polymarket_place_order" ∉ registeredToolNames true ∧
    "polymarket_cancel_order" ∉ registeredToolNames true ∧
    (∀ n ∈ readToolNames, n ∈ registeredToolNames true) ∧
    registeredToolNames false = toolNames := by
  decide

/-- C1 counterexample: the parameters `side="HOLD"`, `size="10"`,
`price="0.5"` have an invalid (non-BUY/SELL) side, yet the operation
does not return a validation error and does issue CLOB calls — the order
is created and posted (as a SELL). -/
theorem C1_cex_invalid_side_submits :
    (placeOrderExecute envAllOk { token_id := "t", side := "HOLD", size := "10", price := "0.5" }).2 ≠ [] ∧
    ((placeOrderExecute envAllOk { token_id := "t", side := "HOLD", size := "10", price := "0.5" }).1).isError
      = false ∧
    (placeOrderExecute envAllOk { token_id := "t", side := "HOLD", size := "10", price := "0.5" }).2
      = [.getMarket "t", .createOrder "t" .sell (.fin ⟨10, 1⟩) (.fin ⟨5, 10⟩), .postOrder] := by
  decide

/-- C1 (amended to the checks the code performs): whenever a place-order
invocation fails the code's validation (empty token id, empty side, size
failing the NaN/minimum check, or price failing the range check), or a
cancel-order invocation carries an empty order id, the CLOB-call trace
is empty — no metadata fetch, createOrder, postOrder or cancelOrder —
and (when initialization and the write gate pass) the result is the
corresponding validation error. -/
theorem C1_validation_blocks_submission :
    (∀ (env : PlaceEnv) (p : PlaceParams),
      (p.token_id = "" ∨ p.side = "" ∨ sizeInvalid (parseFloat p.size) = true ∨
        priceInvalid (parseFloat p.price) = true) →
      (placeOrderExecute env p).2 = [] ∧
      (env.initErr = none → env.writeErr = none →
        ((placeOrderExecute env p).1 = .err "token_id is required" ∨
         (placeOrderExecute env p).1 = .err "side is required (BUY or SELL)" ∨
         (placeOrderExecute env p).1 = .err "size must be at least 5" ∨
         (placeOrderExecute env p).1 = .err "price must be between 0 and 1 (exclusive)"))) ∧
    (∀ env : CancelEnv,
      (cancelOrderExecute env "").2 = [] ∧
      (env.initErr = none → env.writeErr = none →
        (cancelOrderExecute env "").1 = .err "order_id is required")) := by
  constructor
  · intro env p h
    cases hi : env.initErr with
    | some m => simp [placeOrderExecute, hi]
    | none =>
      cases hw : env.writeErr with
      | some m => simp [placeOrderExecute, hi, hw]
      | none =>
        by_cases h1 : p.token_id = ""
        · simp [placeOrderExecute, hi, hw, h1]
        · by_cases h2 : p.side = ""
          · simp [placeOrderExecute, hi, hw, h1, h2]
          · by_cases h3 : sizeInvalid (parseFloat p.size) = true
            · simp [placeOrderExecute, hi, hw, h1, h2, h3]
            · by_cases h4 : priceInvalid (parseFloat p.price) = true
              · simp [placeOrderExecute, hi, hw, h1, h2, h3, h4]
              · rcases h with h | h | h | h <;> simp_all
  · intro env
    cases hi : env.initErr with
    | some m => simp [cancelOrderExecute, hi]
    | none =>
      cases hw : env.writeErr with
      | some m => simp [cancelOrderExecute, hi, hw]
      | none => simp [cancelOrderExecute, hi, hw]

/-- C1 witness: the amended theorem applied to the empty-size invocation
and to the empty cancel id, in a concrete all-successful environment. -/
theorem C1_validation_blocks_submission_witness :
    (placeOrderExecute envAllOk { token_id := "t", side := "BUY", size := "", price := "0.5" }).2 = [] ∧
    (placeOrderExecute envAllOk { token_id := "t", side := "BUY", size := "", price := "0.5" }).1
      = .err "size must be at least 5" ∧
    (cancelOrderExecute { initErr := none, writeErr := none, cancelResp := .ok "raw" } "").2 = [] ∧
    (cancelOrderExecute { initErr := none, writeErr := none, cancelResp := .ok "raw" } "").1
      = .err "order_id is required" := by
  have h := C1_validation_blocks_submission
  refine ⟨(h.1 envAllOk _ (Or.inr (Or.inr (Or.inl (by decide))))).1, ?_, (h.2 _).1, (h.2 _).2 rfl rfl⟩
  have h2 := (h.1 envAllOk { token_id := "t", side := "BUY", size := "", price := "0.5" }
    (Or.inr (Or.inr (Or.inl (by decide))))).2 rfl rfl
  rcases h2 with h2 | h2 | h2 | h2 <;> first | exact h2 | exact absurd h2 (by decide)

/-- C2 counterexample: `size="Infinity"` parses to a non-finite number,
which the spec's size rule ("parses as a finite number and is ≥ 5")
rejects, yet the code's check `isNaN(size) || size < 5` accepts it and
the operation proceeds to submission. -/
theorem C2_cex_infinite_size_accepted :
    sizeAccepted "Infinity" = true ∧
    specSizeAccepted "Infinity" = false ∧
    (parseFloat "Infinity").isFinite = false ∧
    ((placeOrderExecute envAllOk
        { token_id := "t", side := "BUY", size := "Infinity", price := "0.5" }).1).isError = false := by
  decide

/-- C2 (amended: size must parse as a non-NaN number that is not below 5
— an infinite parse is accepted too; price must parse as a finite number
strictly between 0 and 1): the checks characterized against the parsed
value, plus the concrete boundary instances `size="4.99"` (rejected with
the size message), `size="5"` (accepted), `price="0"` and `price="1"`
(rejected with the range message), and `price="0.50"` (accepted). -/
theorem C2_validation_boundaries :
    (∀ s q, parseFloat s = .fin q → (sizeAccepted s = true ↔ (5 : ℚ) ≤ q.toRat)) ∧
    (∀ s, parseFloat s = .inf false → sizeAccepted s = true) ∧
    (∀ s, parseFloat s = .nan → sizeAccepted s = false) ∧
    (∀ s, parseFloat s = .inf true → sizeAccepted s = false) ∧
    (∀ s q, parseFloat s = .fin q → (priceAccepted s = true ↔ 0 < q.toRat ∧ q.toRat < 1)) ∧
    (∀ s, (parseFloat s).isFinite = false → priceAccepted s = false) ∧
    (placeOrderExecute envAllOk { token_id := "t", side := "BUY", size := "4.99", price := "0.50" }).1
      = .err "size must be at least 5" ∧
    sizeAccepted "5" = true ∧
    (placeOrderExecute envAllOk { token_id := "t", side := "BUY", size := "5", price := "0" }).1
      = .err "price must be between 0 and 1 (exclusive)" ∧
    (placeOrderExecute envAllOk { token_id := "t", side := "BUY", size := "5", price := "1" }).1
      = .err "price must be between 0 and 1 (exclusive)" ∧
    priceAccepted "0.50" = true ∧
    ((placeOrderExecute envAllOk { token_id := "t", side := "BUY", size := "5", price := "0.50" }).1).isError
      = false := by
  have five : ((⟨5, 1⟩ : JsRat)).toRat = 5 := by norm_num [JsRat.toRat]
  have zero : ((⟨0, 1⟩ : JsRat)).toRat = 0 := by norm_num [JsRat.toRat]
  have one : ((⟨1, 1⟩ : JsRat)).toRat = 1 := by norm_num [JsRat.toRat]
  refine ⟨?_, ?_, ?_, ?_, ?_, ?_, by decide, by decide, by decide, by decide, by decide, by decide⟩
  · intro s q h
    have hd := parseFloat_den_pos s q h
    have hb := JsRat.blt_iff (a := q) (b := ⟨5, 1⟩) hd (by norm_num)
    rw [five] at hb
    simp only [sizeAccepted, sizeInvalid, h, JsNum.isNaN, JsNum.lt, Bool.false_or, Bool.not_eq_true']
    constructor
    · intro hf
      exact le_of_not_lt (fun hlt => by simp [hb.2 hlt] at hf)
    · intro hf
      exact (Bool.not_eq_true _).mp (fun ht => absurd (hb.1 ht) (not_lt.mpr hf))
  · intro s h
    simp [sizeAccepted, sizeInvalid, h, JsNum.isNaN, JsNum.lt]
  · intro s h
    simp [sizeAccepted, sizeInvalid, h, JsNum.isNaN]
  · intro s h
    simp [sizeAccepted, sizeInvalid, h, JsNum.isNaN, JsNum.lt]
  · intro s q h
    have hd := parseFloat_den_pos s q h
    have hb0 := JsRat.blt_iff (a := (⟨0, 1⟩ : JsRat)) (b := q) (by norm_num) hd
    have hb1 := JsRat.blt_iff (a := q) (b := (⟨1, 1⟩ : JsRat)) hd (by norm_num)
    rw [zero] at hb0
    rw [one] at hb1
    simp only [priceAccepted, priceInvalid, h, JsNum.isNaN, JsNum.le, Bool.false_or,
      Bool.not_eq_true', Bool.or_eq_false_iff, Bool.not_eq_false, Bool.not_eq_false']
    constructor
    · intro hf
      exact ⟨hb0.1 hf.1, hb1.1 hf.2⟩
    · intro hf
      exact ⟨hb0.2 hf.1, hb1.2 hf.2⟩
  · intro s h
    cases hp : parseFloat s with
    | fin q => rw [hp] at h; simp [JsNum.isFinite] at h
    | inf b => cases b <;> simp [priceAccepted, priceInvalid, hp, JsNum.isNaN, JsNum.le]
    | nan => simp [priceAccepted, priceInvalid, hp, JsNum.isNaN]

/-- C2 witness: the amended characterizations applied to the concrete
parses of "4.99" (a finite value below 5) and "0.50" (a finite value in
the interval). -/
theorem C2_validation_boundaries_witness :
    sizeAccepted "4.99" = false ∧ priceAccepted "0.50" = true := by
  have h := C2_validation_boundaries
  constructor
  · have hc := h.1 "4.99" ⟨499, 100⟩ (by decide)
    have : ¬ (5 : ℚ) ≤ (⟨499, 100⟩ : JsRat).toRat := by norm_num [JsRat.toRat]
    exact (Bool.not_eq_true _).mp (fun ht => this (hc.1 ht))
  · have hc := h.2.2.2.2.1 "0.50" ⟨50, 100⟩ (by decide)
    exact hc.2 (by constructor <;> norm_num [JsRat.toRat])

/-- C4 counterexample: a 404 from the single-market endpoint makes the
get-market operation return the error envelope (`isError: true`) with
the not-found message — not a normal non-error result as claimed. -/
theorem C4_cex_not_found_is_error_envelope :
    getMarketExecute { initErr := none, response := .notFound } "abc"
      = .ok (.err "Market not found: abc") ∧
    (ToolOut.err "Market not found: abc" : ToolOut FormattedMarket).isError = true := by
  decide

/-- C4 (amended: both the 404 and the transport failure surface as error
envelopes, distinguishable by message — "Market not found: <id>" versus
"Failed to fetch market: <statusText>"; at the fetch layer the 404 is a
normal null return while other non-ok responses are thrown errors). -/
theorem C4_not_found_vs_transport_failure :
    (∀ (env : MarketEnv) (cid : String), env.initErr = none → cid ≠ "" →
      env.response = .notFound →
      getMarketExecute env cid = .ok (.err ("Market not found: " ++ cid))) ∧
    (∀ (env : MarketEnv) (cid st : String), env.initErr = none → cid ≠ "" →
      env.response = .failure st →
      getMarketExecute env cid = .ok (.err ("Failed to fetch market: " ++ st))) ∧
    fetchGammaMarket .notFound = .ok none ∧
    (∀ st, fetchGammaMarket (.failure st) = .error ("Failed to fetch market: " ++ st)) := by
  refine ⟨?_, ?_, rfl, fun st => rfl⟩
  · intro env cid h1 h2 h3
    simp [getMarketExecute, fetchGammaMarket, h1, h2, h3]
  · intro env cid st h1 h2 h3
    simp [getMarketExecute, fetchGammaMarket, h1, h2, h3]

/-- C4 witness: the amended theorem at a concrete condition id, for both
the 404 and a concrete 500-style failure. -/
theorem C4_not_found_vs_transport_failure_witness :
    getMarketExecute { initErr := none, response := .notFound } "cond1"
      = .ok (.err "Market not found: cond1") ∧
    getMarketExecute { initErr := none, response := .failure "Internal Server Error" } "cond1"
      = .ok (.err "Failed to fetch market: Internal Server Error") := by
  have h := C4_not_found_vs_transport_failure
  exact ⟨h.1 _ "cond1" rfl (by decide) rfl, h.2.1 _ "cond1" "Internal Server Error" rfl (by decide) rfl⟩

theorem formatMarket_fields (m : GammaMarket) (f : FormattedMarket) (h : formatMarket m = .ok f) :
    f.closed = m.closed ∧ f.condition_id = m.conditionId := by
  cases h1 : parseJsonField m.outcomes ["Yes", "No"] with
  | error e => simp [formatMarket, h1] at h
  | ok outs =>
    cases h2 : parseJsonField m.outcomePrices [] with
    | error e => simp [formatMarket, h1, h2] at h
    | ok prices =>
      cases h3 : parseJsonField m.clobTokenIds [] with
      | error e => simp [formatMarket, h1, h2, h3] at h
      | ok tids =>
        simp only [formatMarket, h1, h2, h3, Except.ok.injEq] at h
        rw [← h]
        exact ⟨rfl, rfl⟩

theorem formatAll_ok (ms : List GammaMarket) (fs : List FormattedMarket)
    (h : formatAll ms = .ok fs) :
    fs.length = ms.length ∧ ∀ f ∈ fs, ∃ m ∈ ms, formatMarket m = .ok f := by
  induction ms generalizing fs with
  | nil =>
    simp only [formatAll, Except.ok.injEq] at h
    subst h
    simp
  | cons m rest ih =>
    cases h1 : formatMarket m with
    | error e => simp [formatAll, h1] at h
    | ok f =>
      cases h2 : formatAll rest with
      | error e => simp [formatAll, h1, h2] at h
      | ok fs' =>
        simp only [formatAll, h1, h2, Except.ok.injEq] at h
        subst h
        obtain ⟨hl, hmem⟩ := ih fs' h2
        refine ⟨by simp [hl], ?_⟩
        intro g hg
        rcases List.mem_cons.mp hg with rfl | hg'
        · exact ⟨m, List.mem_cons_self _ _, h1⟩
        · obtain ⟨m', hm', hfm'⟩ := hmem g hg'
          exact ⟨m', List.mem_cons_of_mem _ hm', hfm'⟩

/-- C5 counterexample: a page containing a non-closed market whose
`clobTokenIds` field is an (truthy) empty array passes the filter, and
the operation returns it even though its token id list is empty — every
token of the formatted entry has an empty token id. -/
theorem C5_cex_empty_token_id_list_returned :
    (filterMarketsPage
      (some [{ conditionId := "c1", question := "q", slug := "s", volume := "", endDate := "",
               active := true, closed := false, clobTokenIds := .listVal [],
               outcomes := .absent, outcomePrices := .absent }]) 5).length = 1 ∧
    getMarketsExecute
        { initErr := none,
          response := { ok := true, statusText := "OK",
                        body := some [{ conditionId := "c1", question := "q", slug := "s",
                                        volume := "", endDate := "", active := true, closed := false,
                                        clobTokenIds := .listVal [], outcomes := .absent,
                                        outcomePrices := .absent }] } } (some 5)
      = .ok (.ok [{ condition_id := "c1", question := "q",
                    tokens := [{ token_id := "", outcome := "Yes", price := .fin ⟨0, 1⟩ },
                               { token_id := "", outcome := "No", price := .fin ⟨0, 1⟩ }],
                    volume := "0", end_date := "", active := true, closed := false }]) := by
  decide

/-- C5 (amended: at most `limit` entries, each returned entry not closed
and carrying a truthy — present — `clobTokenIds` field; an empty token
id list can still be returned, as the counterexample shows). -/
theorem C5_list_markets_filter :
    (∀ body limit, (filterMarketsPage body limit).length ≤ limit) ∧
    (∀ body limit m, m ∈ filterMarketsPage body limit →
      m.closed = false ∧ m.clobTokenIds.truthy = true) ∧
    (∀ (env : MarketsEnv) (lim : Option Nat) (fs : List FormattedMarket),
      env.initErr = none → getMarketsExecute env lim = .ok (.ok fs) →
      fs.length ≤ jsOrNat lim 10 ∧ ∀ f ∈ fs, f.closed = false) := by
  refine ⟨?_, ?_, ?_⟩
  · intro body limit
    cases body with
    | none => simp [filterMarketsPage]
    | some ms => simp [filterMarketsPage, List.length_take_le]
  · intro body limit m hm
    cases body with
    | none => simp [filterMarketsPage] at hm
    | some ms =>
      simp only [filterMarketsPage] at hm
      have hm' := List.mem_of_mem_take hm
      have := List.of_mem_filter hm'
      simp only [Bool.and_eq_true, Bool.not_eq_true'] at this
      exact ⟨this.1, this.2⟩
  · intro env lim fs h1 h2
    cases hf : fetchGammaMarkets env.response (jsOrNat lim 10) with
    | error msg => simp [getMarketsExecute, h1, hf] at h2
    | ok ms =>
      cases ha : formatAll ms with
      | error e => simp [getMarketsExecute, h1, hf, ha] at h2
      | ok fs' =>
        simp only [getMarketsExecute, h1, hf, ha, Except.ok.injEq, ToolOut.ok.injEq] at h2
        subst h2
        obtain ⟨hl, hmem⟩ := formatAll_ok ms fs' ha
        have hms : ms = filterMarketsPage env.response.body (jsOrNat lim 10) := by
          simp only [fetchGammaMarkets] at hf
          split at hf
          · exact absurd hf (by simp)
          · exact (Except.ok.inj hf).symm
        constructor
        · rw [hl, hms]
          cases hb : env.response.body with
          | none => simp [filterMarketsPage]
          | some page => simp [filterMarketsPage, List.length_take_le]
        · intro f hf'
          obtain ⟨m, hm, hfm⟩ := hmem f hf'
          have hclosed := (formatMarket_fields m f hfm).1
          rw [hms] at hm
          cases hb : env.response.body with
          | none => rw [hb] at hm; simp [filterMarketsPage] at hm
          | some page =>
            rw [hb] at hm
            simp only [filterMarketsPage] at hm
            have := List.of_mem_filter (List.mem_of_mem_take hm)
            simp only [Bool.and_eq_true, Bool.not_eq_true'] at this
            rw [hclosed]
            exact this.1

/-- C5 witness: the amended theorem applied to a concrete page holding a
closed market, a market without token ids, and a good market. -/
theorem C5_list_markets_filter_witness :
    (filterMarketsPage
      (some [{ conditionId := "c1", question := "q1", slug := "s", volume := "", endDate := "",
               active := true, closed := true, clobTokenIds := .listVal ["t1"],
               outcomes := .absent, outcomePrices := .absent },
             { conditionId := "c2", question := "q2", slug := "s", volume := "", endDate := "",
               active := true, closed := false, clobTokenIds := .absent,
               outcomes := .absent, outcomePrices := .absent },
             { conditionId := "c3", question := "q3", slug := "s", volume := "", endDate := "",
               active := true, closed := false, clobTokenIds := .listVal ["t3"],
               outcomes := .absent, outcomePrices := .absent }]) 2).length ≤ 2 ∧
    ∀ m ∈ filterMarketsPage
      (some [{ conditionId := "c1", question := "q1", slug := "s", volume := "", endDate := "",
               active := true, closed := true, clobTokenIds := .listVal ["t1"],
               outcomes := .absent, outcomePrices := .absent },
             { conditionId := "c2", question := "q2", slug := "s", volume := "", endDate := "",
               active := true, closed := false, clobTokenIds := .absent,
               outcomes := .absent, outcomePrices := .absent },
             { conditionId := "c3", question := "q3", slug := "s", volume := "", endDate := "",
               active := true, closed := false, clobTokenIds := .listVal ["t3"],
               outcomes := .absent, outcomePrices := .absent }]) 2,
      m.closed = false ∧ m.clobTokenIds.truthy = true := by
  have h := C5_list_markets_filter
  exact ⟨h.1 _ 2, fun m hm => h.2.1 _ 2 m hm⟩

theorem tokenAt_succ (prices tids : List String) (x : String) (i : Nat) :
    tokenAt prices tids x (i + 1) = tokenAt prices.tail tids.tail x i := by
  cases prices <;> cases tids <;> simp [tokenAt]

theorem getD_zero_eq_headD (l : List String) : l.getD 0 "" = l.headD "" := by
  cases l <;> simp

theorem buildTokens_eq_zip (outs prices tids : List String) :
    buildTokens outs prices tids = zipTokensSpec outs prices tids := by
  induction outs generalizing prices tids with
  | nil => simp [buildTokens, zipTokensSpec]
  | cons o os ih =>
    rw [show zipTokensSpec (o :: os) prices tids =
          { token_id := tids.headD "", outcome := o,
            price := match prices with
                     | [] => JsNum.fin ⟨0, 1⟩
                     | p :: _ => if p = "" then JsNum.fin ⟨0, 1⟩ else parseFloat p } ::
          zipTokensSpec os prices.tail tids.tail from rfl,
      ← ih prices.tail tids.tail]
    unfold buildTokens
    rw [show (o :: os).length = os.length + 1 from rfl, List.range_succ_eq_map,
      List.map_cons, List.map_map]
    congr 1
    · cases prices <;> cases tids <;> simp [tokenAt]
    · refine List.map_congr_left ?_
      intro i hi
      simp only [Function.comp]
      rw [show (o :: os).getD (i + 1) "" = os.getD i "" by cases os <;> simp [List.getD],
        tokenAt_succ]

/-- C6 counterexample: with `outcomes=["Yes"]`, `outcomePrices=[]` and
`clobTokenIds=["a","b"]`, the normalizer produces a single token — the
entry "b", present in the token-id list, is truncated away, contradicting
"without truncating entries that are present in any of the lists". -/
theorem C6_cex_longer_list_truncated :
    formatMarket { conditionId := "c1", question := "q", slug := "s", volume := "", endDate := "",
                   active := true, closed := false, clobTokenIds := .listVal ["a", "b"],
                   outcomes := .listVal ["Yes"], outcomePrices := .listVal [] }
      = .ok { condition_id := "c1", question := "q",
              tokens := [{ token_id := "a", outcome := "Yes", price := .fin ⟨0, 1⟩ }],
              volume := "0", end_date := "", active := true, closed := false } ∧
    (buildTokens ["Yes"] [] ["a", "b"]).length = 1 := by
  decide

/-- C6 (amended: the zip runs over the outcome indices — one token per
outcome, a missing price defaulting to 0 and a missing token id to the
empty string, without raising an error; price/token-id entries beyond
the outcomes length are dropped): the index loop equals the structural
zip, the token count equals the outcome count, and on native-list fields
the normalizer always succeeds with that zip. -/
theorem C6_positional_zip_defaults :
    (∀ outs prices tids, buildTokens outs prices tids = zipTokensSpec outs prices tids) ∧
    (∀ outs prices tids, (buildTokens outs prices tids).length = outs.length) ∧
    (∀ (m : GammaMarket) outs prices tids,
      m.outcomes = .listVal outs → m.outcomePrices = .listVal prices →
      m.clobTokenIds = .listVal tids →
      formatMarket m = .ok { condition_id := m.conditionId, question := m.question,
                             tokens := zipTokensSpec outs prices tids,
                             volume := if m.volume = "" then "0" else m.volume,
                             end_date := m.endDate, active := m.active, closed := m.closed }) := by
  refine ⟨buildTokens_eq_zip, ?_, ?_⟩
  · intro outs prices tids
    simp [buildTokens]
  · intro m outs prices tids h1 h2 h3
    simp [formatMarket, parseJsonField, h1, h2, h3, buildTokens_eq_zip]

/-- C6 witness: the amended theorem applied to lists of unequal lengths
(outcomes longest), checking the defaulted price and token id. -/
theorem C6_positional_zip_defaults_witness :
    buildTokens ["Yes", "No"] ["0.6"] ["tok1"] = zipTokensSpec ["Yes", "No"] ["0.6"] ["tok1"] ∧
    (buildTokens ["Yes", "No"] ["0.6"] ["tok1"]).length = 2 ∧
    buildTokens ["Yes", "No"] ["0.6"] ["tok1"]
      = [{ token_id := "tok1", outcome := "Yes", price := .fin ⟨6, 10⟩ },
         { token_id := "", outcome := "No", price := .fin ⟨0, 1⟩ }] := by
  exact ⟨C6_positional_zip_defaults.1 _ _ _, C6_positional_zip_defaults.2.1 _ _ _, by decide⟩

/-- C7: the get-positions operation returns exactly empty `positions`
and `open_orders` on an empty (or `null`) open-order set, and for two
open orders sharing one token id it returns exactly one position entry —
built from the first order's size and price — alongside both orders in
the flat `open_orders` list. -/
theorem C7_positions_first_seen_wins :
    (∀ env : PositionsEnv, env.initErr = none → env.openOrders = .ok none →
      getPositionsExecute env = .ok { positions := [], open_orders := [] }) ∧
    (∀ env : PositionsEnv, env.initErr = none → env.openOrders = .ok (some []) →
      getPositionsExecute env = .ok { positions := [], open_orders := [] }) ∧
    (∀ (env : PositionsEnv) (o1 o2 : RawOpenOrder), env.initErr = none →
      env.openOrders = .ok (some [o1, o2]) → o2.asset_id = o1.asset_id →
      getPositionsExecute env
        = .ok { positions := [positionOf o1],
                open_orders := [formatOrder o1, formatOrder o2] }) := by
  refine ⟨?_, ?_, ?_⟩
  · intro env h1 h2
    simp [getPositionsExecute, h1, h2]
  · intro env h1 h2
    simp [getPositionsExecute, h1, h2]
  · intro env o1 o2 h1 h2 h3
    simp [getPositionsExecute, h1, h2, buildPositions, positionOf, h3]

/-- C7 witness: two concrete orders on one token — one position from the
first order, two open-order entries. -/
theorem C7_positions_first_seen_wins_witness :
    getPositionsExecute
        { initErr := none,
          openOrders := .ok (some
            [{ id := "o1", asset_id := "tokA", side := "BUY", price := "0.6",
               original_size := "10", size_matched := "0", outcome := some "Yes",
               market := some "M" },
             { id := "o2", asset_id := "tokA", side := "SELL", price := "0.7",
               original_size := "4", size_matched := "1", outcome := some "Yes",
               market := some "M" }]) }
      = .ok { positions := [{ token_id := "tokA", market := "M", outcome := "Yes",
                              size := "10", avg_price := "0.6" }],
              open_orders := [{ id := "o1", token_id := "tokA", side := "BUY", price := "0.6",
                                size := "10", filled := "0" },
                              { id := "o2", token_id := "tokA", side := "SELL", price := "0.7",
                                size := "4", filled := "1" }] } ∧
    getPositionsExecute { initErr := none, openOrders := .ok (some []) }
      = .ok { positions := [], open_orders := [] } := by
  have h := C7_positions_first_seen_wins
  refine ⟨?_, h.2.1 _ rfl rfl⟩
  have e := h.2.2
    { initErr := none,
      openOrders := .ok (some
        [{ id := "o1", asset_id := "tokA", side := "BUY", price := "0.6",
           original_size := "10", size_matched := "0", outcome := some "Yes",
           market := some "M" },
         { id := "o2", asset_id := "tokA", side := "SELL", price := "0.7",
           original_size := "4", size_matched := "1", outcome := some "Yes",
           market := some "M" }]) }
    { id := "o1", asset_id := "tokA", side := "BUY", price := "0.6",
      original_size := "10", size_matched := "0", outcome := some "Yes", market := some "M" }
    { id := "o2", asset_id := "tokA", side := "SELL", price := "0.7",
      original_size := "4", size_matched := "1", outcome := some "Yes", market := some "M" }
    rfl rfl rfl
  exact e.trans (by decide)

/-- C9: a raw market whose outcomes, outcome prices and token ids arrive
as JSON-encoded strings normalizes identically to the same market with
those values as native arrays (for every string that `JSON.parse`
decodes to the corresponding array of strings). -/
theorem C9_encoded_equals_native :
    ∀ (m : GammaMarket) (sOut sPr sTid : String) (outs prices tids : List String),
      jsonValid sOut = true → parseStrList sOut = some outs →
      jsonValid sPr = true → parseStrList sPr = some prices →
      jsonValid sTid = true → parseStrList sTid = some tids →
      formatMarket { m with outcomes := .strVal sOut, outcomePrices := .strVal sPr,
                            clobTokenIds := .strVal sTid }
        = formatMarket { m with outcomes := .listVal outs, outcomePrices := .listVal prices,
                                clobTokenIds := .listVal tids } := by
  intro m sOut sPr sTid outs prices tids h1 h2 h3 h4 h5 h6
  simp [formatMarket, parseJsonField, h1, h2, h3, h4, h5, h6]

/-- C9 witness: the equivalence at the concrete encodings of
`["Yes","No"]`, `["0.6","0.4"]` and `["t1","t2"]`. -/
theorem C9_encoded_equals_native_witness :
    formatMarket { conditionId := "c", question := "q", slug := "s", volume := "7",
                   endDate := "d", active := true, closed := false,
                   clobTokenIds := .strVal "[\"t1\",\"t2\"]",
                   outcomes := .strVal "[\"Yes\",\"No\"]",
                   outcomePrices := .strVal "[\"0.6\",\"0.4\"]" }
      = formatMarket { conditionId := "c", question := "q", slug := "s", volume := "7",
                       endDate := "d", active := true, closed := false,
                       clobTokenIds := .listVal ["t1", "t2"],
                       outcomes := .listVal ["Yes", "No"],
                       outcomePrices := .listVal ["0.6", "0.4"] } := by
  exact C9_encoded_equals_native
    { conditionId := "c", question := "q", slug := "s", volume := "7", endDate := "d",
      active := true, closed := false, clobTokenIds := .absent, outcomes := .absent,
      outcomePrices := .absent }
    "[\"Yes\",\"No\"]" "[\"0.6\",\"0.4\"]" "[\"t1\",\"t2\"]"
    ["Yes", "No"] ["0.6", "0.4"] ["t1", "t2"]
    (by decide) (by decide) (by decide) (by decide) (by decide) (by decide)

/-- C10: when the outcomes field is absent, not a string or array, or a
string `JSON.parse` rejects, the normalizer falls back to
`["Yes", "No"]`; with prices and token ids also absent the market
normalizes to exactly two tokens labeled "Yes" and "No" with price 0 and
empty token id — never an empty token list. -/
theorem C10_outcomes_fallback :
    ∀ m : GammaMarket,
      (m.outcomes = .absent ∨ (∃ t, m.outcomes = .otherVal t) ∨
        (∃ s, m.outcomes = .strVal s ∧ jsonValid s = false)) →
      parseJsonField m.outcomes ["Yes", "No"] = .ok ["Yes", "No"] ∧
      (m.outcomePrices = .absent → m.clobTokenIds = .absent →
        formatMarket m
          = .ok { condition_id := m.conditionId, question := m.question,
                  tokens := [{ token_id := "", outcome := "Yes", price := .fin ⟨0, 1⟩ },
                             { token_id := "", outcome := "No", price := .fin ⟨0, 1⟩ }],
                  volume := if m.volume = "" then "0" else m.volume,
                  end_date := m.endDate, active := m.active, closed := m.closed }) := by
  have hbt : buildTokens ["Yes", "No"] [] []
      = [{ token_id := "", outcome := "Yes", price := .fin ⟨0, 1⟩ },
         { token_id := "", outcome := "No", price := .fin ⟨0, 1⟩ }] := by decide
  intro m h
  rcases h with h | ⟨t, h⟩ | ⟨s, h, hv⟩
  · exact ⟨by simp [parseJsonField, h],
      fun hp ht => by simp [formatMarket, parseJsonField, h, hp, ht, hbt]⟩
  · exact ⟨by simp [parseJsonField, h],
      fun hp ht => by simp [formatMarket, parseJsonField, h, hp, ht, hbt]⟩
  · exact ⟨by simp [parseJsonField, h, hv],
      fun hp ht => by simp [formatMarket, parseJsonField, h, hv, hp, ht, hbt]⟩

/-- C10 witness: the fallback at a concrete market whose outcomes field
holds an unparseable string, with prices and token ids absent. -/
theorem C10_outcomes_fallback_witness :
    formatMarket { conditionId := "c", question := "q", slug := "s", volume := "",
                   endDate := "", active := true, closed := false,
                   clobTokenIds := .absent, outcomes := .strVal "not json",
                   outcomePrices := .absent }
      = .ok { condition_id := "c", question := "q",
              tokens := [{ token_id := "", outcome := "Yes", price := .fin ⟨0, 1⟩ },
                         { token_id := "", outcome := "No", price := .fin ⟨0, 1⟩ }],
              volume := "0", end_date := "", active := true, closed := false } := by
  exact (C10_outcomes_fallback _ (Or.inr (Or.inr ⟨"not json", rfl, by decide⟩))).2 rfl rfl

/-- C8: when the market-metadata fetch fails during order submission the
operation does not abort — it falls back to tick size 0.01 and
negative-risk false, still creates and posts the order, and echoes the
defaults in the result; and this is the sole local recovery: every other
operation surfaces an upstream failure as an error envelope (listing,
single market, orderbook, balance, positions, trades, cancellation, and
the create/post steps of submission itself). -/
theorem C8_metadata_fallback_sole_recovery :
    (∀ (env : PlaceEnv) (p : PlaceParams) (e : String) (resp : RawOrderResponse),
      env.initErr = none → env.writeErr = none →
      p.token_id ≠ "" → p.side ≠ "" →
      sizeInvalid (parseFloat p.size) = false → priceInvalid (parseFloat p.price) = false →
      env.marketInfo = .error e → env.createErr = none → env.postResp = .ok resp →
      placeOrderExecute env p
        = (.ok { order_id := resp.orderID.getD "", status := jsOr resp.status "unknown",
                 message := resp.errorMsg,
                 order_details := { token_id := p.token_id, side := p.side,
                                    size := parseFloat p.size, price := parseFloat p.price,
                                    tick_size := tickDefault, neg_risk := false } },
           [.getMarket p.token_id,
            .createOrder p.token_id (if p.side = "BUY" then .buy else .sell)
              (parseFloat p.size) (parseFloat p.price),
            .postOrder])) ∧
    (∀ (env : MarketsEnv) (lim : Option Nat), env.initErr = none → env.response.ok = false →
      getMarketsExecute env lim
        = .ok (.err ("Failed to fetch markets: " ++ env.response.statusText))) ∧
    (∀ (env : MarketEnv) (cid st : String), env.initErr = none → cid ≠ "" →
      env.response = .failure st →
      getMarketExecute env cid = .ok (.err ("Failed to fetch market: " ++ st))) ∧
    (∀ (env : OrderbookEnv) (tid msg : String), env.initErr = none → tid ≠ "" →
      env.orderbook = .error msg → getOrderbookExecute env tid = .err msg) ∧
    (∀ (env : BalanceEnv) (msg : String), env.initErr = none →
      env.balanceResp = .error msg → getBalanceExecute env = .err msg) ∧
    (∀ (env : PositionsEnv) (msg : String), env.initErr = none →
      env.openOrders = .error msg → getPositionsExecute env = .err msg) ∧
    (∀ (env : TradesEnv) (lim : Option Nat) (msg : String), env.initErr = none →
      env.trades = .error msg → getTradesExecute env lim = .err msg) ∧
    (∀ (env : CancelEnv) (oid msg : String), env.initErr = none → env.writeErr = none →
      oid ≠ "" → env.cancelResp = .error msg →
      cancelOrderExecute env oid = (.err msg, [.cancelOrder oid])) ∧
    (∀ (env : PlaceEnv) (p : PlaceParams) (msg : String),
      env.initErr = none → env.writeErr = none → p.token_id ≠ "" → p.side ≠ "" →
      sizeInvalid (parseFloat p.size) = false → priceInvalid (parseFloat p.price) = false →
      env.createErr = some msg → (placeOrderExecute env p).1 = .err msg) ∧
    (∀ (env : PlaceEnv) (p : PlaceParams) (msg : String),
      env.initErr = none → env.writeErr = none → p.token_id ≠ "" → p.side ≠ "" →
      sizeInvalid (parseFloat p.size) = false → priceInvalid (parseFloat p.price) = false →
      env.createErr = none → env.postResp = .error msg →
      (placeOrderExecute env p).1 = .err msg) := by
  refine ⟨?_, ?_, ?_, ?_, ?_, ?_, ?_, ?_, ?_, ?_⟩
  · intro env p e resp h1 h2 h3 h4 h5 h6 h7 h8 h9
    simp [placeOrderExecute, h1, h2, h3, h4, h5, h6, h7, h8, h9, metadataOf]
  · intro env lim h1 h2
    simp [getMarketsExecute, fetchGammaMarkets, h1, h2]
  · intro env cid st h1 h2 h3
    simp [getMarketExecute, fetchGammaMarket, h1, h2, h3]
  · intro env tid msg h1 h2 h3
    simp [getOrderbookExecute, h1, h2, h3]
  · intro env msg h1 h2
    simp [getBalanceExecute, h1, h2]
  · intro env msg h1 h2
    simp [getPositionsExecute, h1, h2]
  · intro env lim msg h1 h2
    simp [getTradesExecute, h1, h2]
  · intro env oid msg h1 h2 h3 h4
    simp [cancelOrderExecute, h1, h2, h3, h4]
  · intro env p msg h1 h2 h3 h4 h5 h6 h7
    simp [placeOrderExecute, h1, h2, h3, h4, h5, h6, h7]
  · intro env p msg h1 h2 h3 h4 h5 h6 h7 h8
    simp [placeOrderExecute, h1, h2, h3, h4, h5, h6, h7, h8]

/-- C8 witness: a concrete submission whose metadata fetch fails — the
result echoes tick size 0.01 and negative-risk false and the order is
still created and posted — together with a concrete failing balance
fetch that surfaces as an error envelope. -/
theorem C8_metadata_fallback_sole_recovery_witness :
    placeOrderExecute
        { initErr := none, writeErr := none, marketInfo := .error "metadata down",
          createErr := none,
          postResp := .ok { orderID := some "oid9", status := some "live", errorMsg := none } }
        { token_id := "tok", side := "BUY", size := "10", price := "0.5" }
      = (.ok { order_id := "oid9", status := "live", message := none,
               order_details := { token_id := "tok", side := "BUY",
                                  size := .fin ⟨10, 1⟩, price := .fin ⟨5, 10⟩,
                                  tick_size := ⟨1, 100⟩, neg_risk := false } },
         [.getMarket "tok", .createOrder "tok" .buy (.fin ⟨10, 1⟩) (.fin ⟨5, 10⟩), .postOrder]) ∧
    getBalanceExecute { initErr := none, funder := "0xF", balanceResp := .error "boom" }
      = .err "boom" := by
  have h := C8_metadata_fallback_sole_recovery
  refine ⟨?_, h.2.2.2.2.1 _ "boom" rfl rfl⟩
  have e := h.1
    { initErr := none, writeErr := none, marketInfo := .error "metadata down",
      createErr := none,
      postResp := .ok { orderID := some "oid9", status := some "live", errorMsg := none } }
    { token_id := "tok", side := "BUY", size := "10", price := "0.5" }
    "metadata down" { orderID := some "oid9", status := some "live", errorMsg := none }
    rfl rfl (by decide) (by decide) (by decide) (by decide) rfl rfl rfl
  exact e.trans (by decide)

end Polymarket
